import Mathlib

/-!  Verification of the pubtalk audio-routing tool.

This file gives a shallow embedding of the tool's audio-control mediator
(`internal/pactl`: `Pactl`, `SinkExists`, `GetSinkMonitor`, `FindModules`,
`FindModulesMatching`, `ListSinkInputs`) and of the deployment/reset engine
(`internal/profiles/manager.go`: `Deploy`, `Reset`), and proves the spec's
claims about them.

Modelling conventions:
* Go strings are `List Char` (`Str`); `str s` injects a Lean string literal.
* `bufio.Scanner` line splitting, `strings.Split`, `strings.TrimSpace`,
  `strings.HasPrefix`, `strings.Contains`, `strconv.Atoi` are re-implemented
  as executable functions mirroring the Go standard library behaviour used
  by this program (ASCII/Latin-1 whitespace set; no int64 overflow is ever
  reached by the inputs of interest).
* An external command execution returns combined output plus an optional
  error (`ExecResult`); a `Client` carries the injected `Executor` (`ex`),
  the ambient real system (`sys`, reached by direct `exec.Command` calls),
  and the `DryRun` flag.
* `Deploy`/`Reset` return the list of mutating pactl commands they issue
  (`load-module` / `move-sink-input` / `unload-module` argument vectors, in
  issue order) together with their Go error result; read-only queries are
  reached through the mediator functions and the client's executor.
-/

namespace Pubtalk

/-- Go strings, modelled as lists of characters. -/
abbrev Str := List Char

/-- Inject a Lean string literal as a Go string. -/
def str (s : String) : Str := s.data

/-- Split a character list at every occurrence of `c` (Go `strings.Split`
with a one-character separator): always returns at least one piece. -/
def splitOnChar (c : Char) : Str → List Str
  | [] => [[]]
  | x :: xs =>
    match splitOnChar c xs with
    | [] => [[]]
    | r :: rs => if x = c then [] :: r :: rs else (x :: r) :: rs

/-- Drop one trailing carriage return (Go `bufio.ScanLines`' `dropCR`). -/
def dropCR (l : Str) : Str := if l.getLast? = some '\r' then l.dropLast else l

/-- The sequence of lines produced by `bufio.Scanner` with `ScanLines`:
split at newlines, a trailing newline produces no extra empty token, and a
trailing `\r` is stripped from each line. -/
def scanLines (s : Str) : List Str :=
  let parts := splitOnChar '\n' s
  (if parts.getLast? = some [] then parts.dropLast else parts).map dropCR

/-- Go `strings.HasPrefix l p`. -/
def startsWith : Str → Str → Bool
  | _, [] => true
  | [], _ :: _ => false
  | a :: as, b :: bs => a == b && startsWith as bs

/-- Go `strings.Contains l sub` (contiguous substring). -/
def containsSub : Str → Str → Bool
  | [], needle => needle.isEmpty
  | h :: t, needle => startsWith (h :: t) needle || containsSub t needle

/-- Go `strings.TrimPrefix l pre`. -/
def trimPre (l pre : Str) : Str := if startsWith l pre then l.drop pre.length else l

/-- Go `unicode.IsSpace` restricted to the Latin-1 fast path, which covers
every byte this program's inputs can contain. -/
def goIsSpace (c : Char) : Bool :=
  c == ' ' || c == '\t' || c == '\n' || c == Char.ofNat 11 || c == Char.ofNat 12 ||
  c == '\r' || c == Char.ofNat 133 || c == Char.ofNat 160

/-- Go `strings.TrimSpace`. -/
def trimSpace (l : Str) : Str :=
  ((l.dropWhile goIsSpace).reverse.dropWhile goIsSpace).reverse

/-- Value of a decimal digit character. -/
def digitVal (c : Char) : Option Nat :=
  if 48 ≤ c.toNat ∧ c.toNat ≤ 57 then some (c.toNat - 48) else none

/-- Accumulate the value of a digit run; fails on any non-digit. -/
def digitsValAux : Str → Nat → Option Nat
  | [], acc => some acc
  | c :: t, acc =>
    match digitVal c with
    | some d => digitsValAux t (acc * 10 + d)
    | none => none

/-- Value of a nonempty all-digit string. -/
def digitsVal : Str → Option Nat
  | [] => none
  | l => digitsValAux l 0

/-- Go `strconv.Atoi` (overflow never reached by this program's inputs). -/
def goAtoi : Str → Option Int
  | '+' :: rest => (digitsVal rest).map Int.ofNat
  | '-' :: rest => (digitsVal rest).map (fun n => -(n : Int))
  | s => (digitsVal s).map Int.ofNat

/-- Decimal rendering of a natural number. -/
def natToStr (n : Nat) : Str := Nat.toDigits 10 n

/-- Go `strconv.Itoa`. -/
def intToStr (i : Int) : Str :=
  if i < 0 then '-' :: natToStr i.natAbs else natToStr i.natAbs

/-- ASCII lower-casing of one character (Go `strings.ToLower` on the inputs
this program compares: application names). -/
def lowerChar (c : Char) : Char :=
  if 65 ≤ c.toNat ∧ c.toNat ≤ 90 then Char.ofNat (c.toNat + 32) else c

/-- Go `strings.ToLower`. -/
def toLowerStr (l : Str) : Str := l.map lowerChar

/-- Is the character a double quote (the cutset of `strings.Trim(…, "\"")`). -/
def isQuote (c : Char) : Bool := c == '"'

/-- Go `strings.Trim(l, "\"")`. -/
def trimQuotes (l : Str) : Str :=
  ((l.dropWhile isQuote).reverse.dropWhile isQuote).reverse

/-- Split at the first occurrence of `c`: `some (before, after)` or `none`. -/
def breakAt (c : Char) : Str → Option (Str × Str)
  | [] => none
  | x :: xs =>
    if x == c then some ([], xs)
    else
      match breakAt c xs with
      | none => none
      | some (a, b) => some (x :: a, b)

/-- Go `strings.SplitN(l, "=", 2)`. -/
def splitN2Eq (l : Str) : List Str :=
  match breakAt '=' l with
  | none => [l]
  | some (a, b) => [a, b]

/-- Go `strings.Join(args, " ")`. -/
def joinSpace : List Str → Str
  | [] => []
  | [a] => a
  | a :: b :: t => a ++ ' ' :: joinSpace (b :: t)

/-! ## The audio control mediator (`internal/pactl/pactl.go`) -/

/-- Go errors, carried as their message text. -/
abbrev GoError := Str

deriving instance DecidableEq for Except

/-- Result of running an external command: combined output and optional
error (mirroring Go's `([]byte, error)` pair). -/
abbrev ExecResult := Str × Option GoError

/-- The pactl client: `ex` is the injected `Executor` (`c.Exec`), `sys` is
the ambient real system reached by direct `exec.Command` calls, and
`dryRun` is the `DryRun` flag.  For a client built by `pactl.New`, `ex`
and `sys` denote the same real system. -/
structure Client where
  ex : List Str → ExecResult
  sys : List Str → ExecResult
  dryRun : Bool

/-- A single-quote character, used when rendering Go's `'%s'` formats. -/
def sq : Char := '\''

/-- `'%s'`: a name wrapped in single quotes. -/
def quo (s : Str) : Str := sq :: (s ++ [sq])

/-- The synthesized dry-run response of `Client.Pactl`. -/
def dryEcho (args : List Str) : Str := str "dry-run: pactl " ++ joinSpace args

/-- `Client.Pactl` (profiles.go lines 111–122 of the concatenated listing):
in dry-run mode returns the echo string without touching any executor;
otherwise runs `pactl` through the injected executor and wraps failures. -/
def Pactl (c : Client) (args : List Str) : Except GoError Str :=
  if c.dryRun then .ok (dryEcho args)
  else
    match c.ex args with
    | (out, none) => .ok out
    | (out, some e) => .error (str "pactl failed: " ++ e ++ str ", output: " ++ trimSpace out)

/-- Does a short-sinks row (tab-separated) name exactly `sinkName`?
(`len(parts) >= 2 && parts[1] == sinkName`). -/
def sinkRowMatches (sinkName : Str) (line : Str) : Bool :=
  match splitOnChar '\t' line with
  | _ :: name :: _ => name == sinkName
  | _ => false

/-- `Client.SinkExists`. -/
def SinkExists (c : Client) (sinkName : Str) : Except GoError Bool :=
  match Pactl c [str "list", str "short", str "sinks"] with
  | .error e => .error (str "failed to list sinks: " ++ e)
  | .ok out => .ok ((scanLines out).any (sinkRowMatches sinkName))

/-- The scan loop of `Client.GetSinkMonitor`: walks the trimmed lines with
the `inTargetSink` flag, resetting at `Sink #` headers, arming at lines
beginning `Name: <sinkName>` (a prefix test in the source), and returning
the first `Monitor Source: ` value seen while armed. -/
def gsmLoop (sinkName : Str) : List Str → Bool → Option Str
  | [], _ => none
  | l :: rest, inTargetSink =>
    let line := trimSpace l
    if startsWith line (str "Sink #") then gsmLoop sinkName rest false
    else if startsWith line (str "Name: " ++ sinkName) then gsmLoop sinkName rest true
    else if inTargetSink && startsWith line (str "Monitor Source: ") then
      some (trimPre line (str "Monitor Source: "))
    else gsmLoop sinkName rest inTargetSink

/-- `Client.GetSinkMonitor`. -/
def GetSinkMonitor (c : Client) (sinkName : Str) : Except GoError Str :=
  match Pactl c [str "list", str "sinks"] with
  | .error e => .error (str "failed to list sinks: " ++ e)
  | .ok out =>
    match gsmLoop sinkName (scanLines out) false with
    | some m => .ok m
    | none => .error (str "monitor source for sink " ++ quo sinkName ++ str " not found")

/-- One row of `Client.FindModules`: id of a row with ≥ 3 tab-separated
columns whose third column contains the substring and whose first column
parses as an integer. -/
def fmRowId (argumentSubstr : Str) (line : Str) : Option Int :=
  match splitOnChar '\t' line with
  | idPart :: _ :: argsPart :: _ =>
    if containsSub argsPart argumentSubstr then goAtoi idPart else none
  | _ => none

/-- `Client.FindModules`. -/
def FindModules (c : Client) (argumentSubstr : Str) : Except GoError (List Int) :=
  match Pactl c [str "list", str "short", str "modules"] with
  | .error e => .error (str "failed to list modules: " ++ e)
  | .ok out =>
    let ids := (scanLines out).filterMap (fmRowId argumentSubstr)
    if ids.isEmpty then
      .error (str "no modules with argument substring " ++ quo argumentSubstr ++ str " not found")
    else .ok ids

/-- One row of `Client.FindModulesMatching`: as `fmRowId` but the third
column must contain every substring of `substrs` (logical AND). -/
def fmmRowId (substrs : List Str) (line : Str) : Option Int :=
  match splitOnChar '\t' line with
  | idPart :: _ :: argsPart :: _ =>
    if substrs.all (fun s => containsSub argsPart s) then goAtoi idPart else none
  | _ => none

/-- `Client.FindModulesMatching`. -/
def FindModulesMatching (c : Client) (substrs : List Str) : Except GoError (List Int) :=
  match Pactl c [str "list", str "short", str "modules"] with
  | .error e => .error (str "failed to list modules: " ++ e)
  | .ok out =>
    let ids := (scanLines out).filterMap (fmmRowId substrs)
    if ids.isEmpty then
      .error (str "no modules matching substrings [" ++ joinSpace substrs ++ str "] found")
    else .ok ids

/-- A parsed sink input (`pactl.SinkInput`). -/
structure SinkInput where
  id : Int
  applicationName : Str
deriving DecidableEq

/-- A line (already trimmed) opening a sink-input block. -/
def siHeader (l : Str) : Bool := startsWith (trimSpace l) (str "Sink Input #")

/-- A line (already trimmed) carrying the `application.name` property. -/
def appNameLine (l : Str) : Bool := startsWith (trimSpace l) (str "application.name =")

/-- The record freshly created at a `Sink Input #<id>` header: the id text
after the header is parsed with `Atoi`, the parse error discarded (id 0). -/
def initRec (l : Str) : SinkInput :=
  { id := (goAtoi (trimPre (trimSpace l) (str "Sink Input #"))).getD 0
    applicationName := [] }

/-- The `application.name =` update of the current record: split at the
first `=`, trim spaces and double quotes from the value. -/
def psiStep (cur : SinkInput) (line : Str) : SinkInput :=
  match splitN2Eq line with
  | [_, v] => { cur with applicationName := trimQuotes (trimSpace v) }
  | _ => cur

/-- Effect of one non-header line on the current record. -/
def applyLine (r : SinkInput) (l : Str) : SinkInput :=
  if appNameLine l then psiStep r (trimSpace l) else r

/-- The scanning loop of `Client.ListSinkInputs`: headers flush the current
record and open a new one; `application.name` lines update the current
record; all other lines are ignored; the last record is flushed at EOF. -/
def psiLoop : List Str → Option SinkInput → List SinkInput → List SinkInput
  | [], none, acc => acc
  | [], some cur, acc => acc ++ [cur]
  | l :: rest, cur, acc =>
    if siHeader l then
      psiLoop rest (some (initRec l))
        (match cur with | some c0 => acc ++ [c0] | none => acc)
    else
      match cur with
      | some c0 => psiLoop rest (some (applyLine c0 l)) acc
      | none => psiLoop rest none acc

/-- The sink-input parser applied to the scanned lines. -/
def parseSinkInputs (ls : List Str) : List SinkInput := psiLoop ls none []

/-- `Client.ListSinkInputs`.  NOTE (faithful to the source): this method
runs `exec.Command("pactl", "list", "sink-inputs")` directly — the ambient
system `c.sys` — bypassing both the injected executor `c.ex` and the
`DryRun` flag. -/
def ListSinkInputs (c : Client) : Except GoError (List SinkInput) :=
  match c.sys [str "list", str "sink-inputs"] with
  | (_, some e) => .error (str "failed to execute pactl command: " ++ e)
  | (out, none) => .ok (parseSinkInputs (scanLines out))

/-! ## The deployment/reset engine (`internal/profiles/manager.go`) -/

/-- An application declared by a profile. -/
structure Application where
  name : Str
  role : Str

/-- A routing profile (`profiles.Profile`). -/
structure Profile where
  name : Str
  description : Str
  virtualSink : Str
  applications : List Application

/-- A mutating pactl command: its argument vector. -/
abbrev Cmd := List Str

/-- `pactl load-module module-null-sink sink_name=<n>` (Deploy step 1). -/
def nullSinkCmd (n : Str) : Cmd :=
  [str "load-module", str "module-null-sink", str "sink_name=" ++ n]

/-- The `sink_properties` argument of the mic sink creation. -/
def micPropsArg (desc : Str) : Str :=
  str "sink_properties=\"device.description=" ++ [sq] ++ desc ++ [sq] ++
    str " device.icon_name=audio-input-microphone\""

/-- `pactl load-module module-null-sink sink_name=<mic> sink_properties=…`
(Deploy step 2). -/
def micSinkCmd (mic desc : Str) : Cmd :=
  [str "load-module", str "module-null-sink", str "sink_name=" ++ mic, micPropsArg desc]

/-- `pactl load-module module-loopback source=<src> sink=<snk>
latency_msec=1` (Deploy step 3). -/
def loopbackCmd (src snk : Str) : Cmd :=
  [str "load-module", str "module-loopback", str "source=" ++ src, str "sink=" ++ snk,
    str "latency_msec=1"]

/-- `pactl move-sink-input <id> <snk>` (`Client.MoveSinkInput`). -/
def moveCmd (id : Int) (snk : Str) : Cmd := [str "move-sink-input", intToStr id, snk]

/-- `pactl unload-module <id>` (`Client.UnloadModule`). -/
def unloadCmd (id : Int) : Cmd := [str "unload-module", intToStr id]

/-- Deploy step 4 for one declared application: for `playback` roles, list
the live sink inputs (through the direct system call, see `ListSinkInputs`)
and issue a move for every input whose lowercased application name contains
the lowercased declared name; listing failures and move failures produce
warnings only.  `input_target` roles only print guidance. -/
def routeOne (c : Client) (virtualSink : Str) (app : Application) : List Cmd :=
  if app.role == str "playback" then
    match ListSinkInputs c with
    | .error _ => []
    | .ok inputs =>
      inputs.filterMap fun inp =>
        if containsSub (toLowerStr inp.applicationName) (toLowerStr app.name) then
          some (moveCmd inp.id virtualSink)
        else none
  else []

/-- Deploy step 4 over the profile's declared applications, in order. -/
def routeApps (c : Client) (p : Profile) : List Cmd :=
  (p.applications.map (routeOne c p.virtualSink)).flatten

/-- `Manager.Deploy` (manager.go lines 30–118): returns the mutating
commands issued, in order, and the Go error result.  Each failing step of
steps 1–3 returns its error immediately (the Go `return` statements);
step 4 failures are warnings. -/
def Deploy (c : Client) (p : Profile) : List Cmd × Except GoError Unit :=
  match SinkExists c p.virtualSink with
  | .error e => ([], .error (str "could not check for sink " ++ quo p.virtualSink ++ str ": " ++ e))
  | .ok exists1 =>
    let t1 : List Cmd := if exists1 then [] else [nullSinkCmd p.virtualSink]
    let r1 : Except GoError Unit :=
      if exists1 then .ok ()
      else
        match Pactl c (nullSinkCmd p.virtualSink) with
        | .error e =>
          .error (str "failed to create virtual sink " ++ quo p.virtualSink ++ str ": " ++ e)
        | .ok _ => .ok ()
    match r1 with
    | .error e => (t1, .error e)
    | .ok _ =>
      let micSinkName := p.virtualSink ++ str "-mic"
      let micDescription := str "Virtual Mic (" ++ p.name ++ str ")"
      match SinkExists c micSinkName with
      | .error e =>
        (t1, .error (str "could not check for mic sink " ++ quo micSinkName ++ str ": " ++ e))
      | .ok exists2 =>
        let t2 : List Cmd := if exists2 then [] else [micSinkCmd micSinkName micDescription]
        let r2 : Except GoError Unit :=
          if exists2 then .ok ()
          else
            match Pactl c (micSinkCmd micSinkName micDescription) with
            | .error e =>
              .error (str "failed to create virtual mic sink " ++ quo micSinkName ++ str ": " ++ e)
            | .ok _ => .ok ()
        match r2 with
        | .error e => (t1 ++ t2, .error e)
        | .ok _ =>
          match GetSinkMonitor c p.virtualSink with
          | .error e =>
            (t1 ++ t2,
             .error (str "failed to get monitor source for " ++ quo p.virtualSink ++ str ": " ++ e))
          | .ok monitorSource =>
            match FindModulesMatching c
                [str "source=" ++ monitorSource, str "sink=" ++ micSinkName] with
            | .error _ =>
              match Pactl c (loopbackCmd monitorSource micSinkName) with
              | .error e =>
                (t1 ++ t2 ++ [loopbackCmd monitorSource micSinkName],
                 .error (str "failed to create loopback: " ++ e))
              | .ok _ =>
                (t1 ++ t2 ++ [loopbackCmd monitorSource micSinkName] ++ routeApps c p, .ok ())
            | .ok _ => (t1 ++ t2 ++ routeApps c p, .ok ())

/-- The Go two-value call `monitorSource, _ := client.GetSinkMonitor(v)`
with its error discarded: the monitor name, or the zero value `""` when
resolution failed. -/
def resolvedMonitor (c : Client) (v : Str) : Str :=
  match GetSinkMonitor c v with
  | .ok m => m
  | .error _ => []

/-- The unload commands issued for one find-and-unload step of `Reset`:
one `unload-module` per returned id, in order, and none when the find
reported an error (printed as "No … modules found"). -/
def unloadsOf (r : Except GoError (List Int)) : List Cmd :=
  match r with
  | .error _ => []
  | .ok ids => ids.map unloadCmd

/-- `Manager.Reset` (manager.go lines 121–174): the monitor-resolution
error is discarded (`monitorSource, _ := …`, an empty name on failure);
each of the three find-and-unload steps is attempted regardless of the
others; individual unload failures are warnings; always returns nil. -/
def Reset (c : Client) (p : Profile) : List Cmd × Except GoError Unit :=
  let micSinkName := p.virtualSink ++ str "-mic"
  let monitorSource : Str := resolvedMonitor c p.virtualSink
  let t1 : List Cmd :=
    unloadsOf (FindModulesMatching c
      [str "source=" ++ monitorSource, str "sink=" ++ micSinkName])
  let t2 : List Cmd := unloadsOf (FindModules c (str "sink_name=" ++ micSinkName))
  let t3 : List Cmd := unloadsOf (FindModules c (str "sink_name=" ++ p.virtualSink))
  (t1 ++ t2 ++ t3, .ok ())

/-! ## Specification-side predicates used by the claim statements -/

/-- A module-listing row qualifies for `substrs` with id `n`: it has at
least three tab-separated columns, its third column contains every
substring, and its first column parses as the integer `n`. -/
def RowQualifies (substrs : List Str) (line : Str) (n : Int) : Prop :=
  ∃ idPart c2 argsPart rest,
    splitOnChar '\t' line = idPart :: c2 :: argsPart :: rest ∧
    (∀ s ∈ substrs, containsSub argsPart s = true) ∧ goAtoi idPart = some n

/-- A `Sink #` block header (after trimming). -/
def sinkHeaderLine (l : Str) : Bool := startsWith (trimSpace l) (str "Sink #")

/-- A line whose trimmed form begins with `Name: <name>` — the source's
prefix test, satisfied also by longer sink names. -/
def nameMatchLine (name l : Str) : Bool := startsWith (trimSpace l) (str "Name: " ++ name)

/-- A `Monitor Source: ` line (after trimming). -/
def monitorLine (l : Str) : Bool := startsWith (trimSpace l) (str "Monitor Source: ")

/-- The value carried by a `Monitor Source: ` line. -/
def monitorVal (l : Str) : Str := trimPre (trimSpace l) (str "Monitor Source: ")

/-- Somewhere in `lines`, with no intervening `Sink #` header, a
`Monitor Source:` line carries the value `m` (the armed-scan condition). -/
def MonReachVal (m : Str) (lines : List Str) : Prop :=
  ∃ mid ml post,
    lines = mid ++ ml :: post ∧
    (∀ l ∈ mid, sinkHeaderLine l = false) ∧
    monitorLine ml = true ∧ m = monitorVal ml

/-- Witness that the listing yields monitor value `m` for `name`: a
`Name: <name>`-prefixed line is followed, with no intervening `Sink #`
header, by a `Monitor Source:` line carrying `m`. -/
def MonWitness (name m : Str) (lines : List Str) : Prop :=
  ∃ pre nl mid ml post,
    lines = pre ++ nl :: (mid ++ ml :: post) ∧
    nameMatchLine name nl = true ∧
    (∀ l ∈ mid, sinkHeaderLine l = false) ∧
    monitorLine ml = true ∧ m = monitorVal ml

/-- The unquoted value carried by an `application.name =` line. -/
def appVal (l : Str) : Str :=
  match splitN2Eq (trimSpace l) with
  | [_, v] => trimQuotes (trimSpace v)
  | _ => []

/-- Fold a block body over the current record, line by line. -/
def applyBody (r : SinkInput) (b : List Str) : SinkInput := b.foldl applyLine r

/-- The header-delimited blocks of a sink-input listing: each
`Sink Input #` header paired with the following non-header lines; lines
before the first header belong to no block. -/
def siBlocks : List Str → List (Str × List Str)
  | [] => []
  | l :: rest =>
    if siHeader l then
      (l, rest.takeWhile (fun x => !siHeader x)) ::
        siBlocks (rest.dropWhile (fun x => !siHeader x))
    else siBlocks rest
termination_by lines => lines.length
decreasing_by
  all_goals simp_wf
  all_goals
    have hle : ∀ (xs : List Str), (List.dropWhile (fun x => !siHeader x) xs).length ≤ xs.length := by
      intro xs
      induction xs with
      | nil => exact Nat.le_refl _
      | cons a t ih =>
        rw [List.dropWhile_cons]
        split
        · exact Nat.le_trans ih (Nat.le_succ _)
        · exact Nat.le_refl _
  all_goals exact Nat.lt_succ_of_le (hle _)

/-- The application name a block yields: the value of its last
`application.name =` line, or empty when none is present. -/
def blockAppName (b : List Str) : Str :=
  match (b.filter appNameLine).getLast? with
  | some l => appVal l
  | none => []

/-- The record a header-delimited block parses to. -/
def blockRec (blk : Str × List Str) : SinkInput := applyBody (initRec blk.1) blk.2

/-! ## Concrete-evaluation sanity checks of the embedding -/

/-- A lookup-table executor for concrete test clients: known argument
vectors answer with their output, unknown ones fail like a missing
command. -/
def tableExec (table : List (List Str × Str)) : List Str → ExecResult := fun args =>
  match table.find? (fun row => row.1 == args) with
  | some row => (row.2, none)
  | none => ([], some (str "exit status 1"))

/-- A test profile: virtual sink `v`, one playback application `fire`. -/
def devProfile : Profile :=
  { name := str "fp", description := str "", virtualSink := str "v"
    applications := [{ name := str "fire", role := str "playback" }] }

/-- A fresh-server client for exercising `Deploy`. -/
def devClient : Client :=
  { ex := tableExec
      [([str "list", str "short", str "sinks"], str ""),
       ([str "list", str "sinks"], str "Sink #0\n\tName: v\n\tMonitor Source: v.monitor\n"),
       ([str "list", str "short", str "modules"], str ""),
       (nullSinkCmd (str "v"), str ""),
       (micSinkCmd (str "v-mic") (str "Virtual Mic (fp)"), str ""),
       (loopbackCmd (str "v.monitor") (str "v-mic"), str "")]
    sys := tableExec
      [([str "list", str "sink-inputs"],
        str "Sink Input #5\n\tapplication.name = \"Firefox\"")]
    dryRun := false }

/-- A deployed-server client for exercising `Reset`. -/
def rstClient : Client :=
  { ex := tableExec
      [([str "list", str "sinks"], str "Sink #0\n\tName: v\n\tMonitor Source: v.monitor\n"),
       ([str "list", str "short", str "modules"],
        str "1\tmodule-null-sink\tsink_name=v\n2\tmodule-null-sink\tsink_name=v-mic x\n3\tmodule-loopback\tsource=v.monitor sink=v-mic latency_msec=1")]
    sys := tableExec []
    dryRun := false }

/-- A dry-run client over an arbitrary-free table. -/
def dryClient : Client := { ex := tableExec [], sys := tableExec [], dryRun := true }

/-- Dry-run client whose ambient system reports one live sink input. -/
def c1ClientA : Client :=
  { ex := tableExec []
    sys := tableExec [([str "list", str "sink-inputs"], str "Sink Input #3")]
    dryRun := true }

/-- Dry-run client identical to `c1ClientA` except that its ambient system
reports no sink inputs. -/
def c1ClientB : Client :=
  { ex := tableExec []
    sys := tableExec [([str "list", str "sink-inputs"], str "")]
    dryRun := true }

/-- A client whose short sink listing fails but whose verbose sink
listing, module listing and loopback creation all succeed; Deploy's first
existence check errors here while step 3 in isolation would succeed. -/
def c2Client : Client :=
  { ex := tableExec
      [([str "list", str "sinks"], str "Name: v\nMonitor Source: vmon"),
       ([str "list", str "short", str "modules"], str ""),
       (loopbackCmd (str "vmon") (str "v-mic"), str "")]
    sys := tableExec []
    dryRun := false }

/-- A client whose short sink listing is clean and empty but where every
mutation fails: Deploy creates the base sink, the creation errors, and
Deploy aborts with exactly that one issued command. -/
def c2bClient : Client :=
  { ex := tableExec [([str "list", str "short", str "sinks"], str "")]
    sys := tableExec []
    dryRun := false }

/-- The error with which `Deploy c2bClient devProfile` aborts. -/
def eC2b : GoError :=
  str "failed to create virtual sink " ++ quo (str "v") ++ str ": " ++
    (str "pactl failed: " ++ str "exit status 1" ++ str ", output: " ++ trimSpace (str ""))

/-- A client on which both sinks exist, the monitor resolves to `vmon`,
and the single loaded module's argument string contains the bare names
`vmon` and `v-mic` but not the `source=`/`sink=` prefixed forms. -/
def c4Client : Client :=
  { ex := tableExec
      [([str "list", str "short", str "sinks"], str "0\tv\tx\n1\tv-mic\tx"),
       ([str "list", str "sinks"], str "Name: v\nMonitor Source: vmon"),
       ([str "list", str "short", str "modules"], str "9\tmodule-x\tfoo=vmon bar=v-mic"),
       (loopbackCmd (str "vmon") (str "v-mic"), str "")]
    sys := tableExec []
    dryRun := false }

/-- A client whose verbose sink listing has a single block named `foobar`:
a query for `foo` matches it by prefix although no block is named exactly
`foo`. -/
def c3Client : Client :=
  { ex := tableExec
      [([str "list", str "sinks"], str "Sink #1\nName: foobar\nMonitor Source: m1")]
    sys := tableExec []
    dryRun := false }

/-- A client on which monitor resolution fails (no matching sink block)
while the module listing holds a loopback-like module whose arguments
contain `source=` and `sink=v-mic`. -/
def c5Client : Client :=
  { ex := tableExec
      [([str "list", str "sinks"], str "nothing"),
       ([str "list", str "short", str "modules"], str "7\tmodule-loopback\tsource=x sink=v-mic")]
    sys := tableExec []
    dryRun := false }

example :
    Deploy devClient devProfile =
      ([nullSinkCmd (str "v"), micSinkCmd (str "v-mic") (str "Virtual Mic (fp)"),
        loopbackCmd (str "v.monitor") (str "v-mic"), moveCmd 5 (str "v")], .ok ()) := by decide

example :
    Reset rstClient devProfile =
      ([unloadCmd 3, unloadCmd 2, unloadCmd 1, unloadCmd 2], .ok ()) := by decide

example : SinkExists dryClient (str "v") = .ok false := by decide

example :
    (Deploy dryClient devProfile).1 =
      [nullSinkCmd (str "v"), micSinkCmd (str "v-mic") (str "Virtual Mic (fp)")] := by decide

example : splitOnChar '\t' (str "0\tfoo\targs") = [str "0", str "foo", str "args"] := by decide

/-! ## Characterizations of the string primitives -/

theorem startsWith_iff (l p : Str) : startsWith l p = true ↔ ∃ r, l = p ++ r := by
  induction p generalizing l with
  | nil => simp [startsWith]
  | cons b bs ih =>
    cases l with
    | nil => simp [startsWith]
    | cons a as =>
      simp only [startsWith, Bool.and_eq_true, beq_iff_eq, ih, List.cons_append,
        List.cons.injEq]
      constructor
      · rintro ⟨rfl, r, rfl⟩; exact ⟨r, rfl, rfl⟩
      · rintro ⟨r, rfl, rfl⟩; exact ⟨rfl, r, rfl⟩

theorem containsSub_iff (l n : Str) : containsSub l n = true ↔ ∃ a b, l = a ++ n ++ b := by
  induction l with
  | nil =>
    simp only [containsSub, List.isEmpty_iff]
    constructor
    · rintro rfl; exact ⟨[], [], rfl⟩
    · rintro ⟨a, b, h⟩
      exact (List.append_eq_nil.mp (List.append_eq_nil.mp h.symm).1).2
  | cons h t ih =>
    simp only [containsSub, Bool.or_eq_true, startsWith_iff, ih]
    constructor
    · rintro (⟨r, hr⟩ | ⟨a, b, rfl⟩)
      · exact ⟨[], r, by simp [hr]⟩
      · exact ⟨h :: a, b, rfl⟩
    · rintro ⟨a, b, hab⟩
      cases a with
      | nil => exact Or.inl ⟨b, by simpa using hab⟩
      | cons x xs =>
        right
        rw [List.cons_append, List.cons_append] at hab
        injection hab with h1 h2
        exact ⟨xs, b, by simp [h2]⟩

theorem containsSub_trans {c b a : Str} (h1 : containsSub b a = true)
    (h2 : containsSub c b = true) : containsSub c a = true := by
  rw [containsSub_iff] at h1 h2 ⊢
  obtain ⟨u, v, rfl⟩ := h1
  obtain ⟨x, y, rfl⟩ := h2
  exact ⟨x ++ u, v ++ y, by simp⟩

theorem containsSub_append_right (s t : Str) : containsSub (s ++ t) s = true :=
  (containsSub_iff _ _).mpr ⟨[], t, by simp⟩

/-! ## Row-level characterization of the module queries -/

theorem fmmRowId_eq_some_iff {substrs : List Str} {line : Str} {n : Int} :
    fmmRowId substrs line = some n ↔ RowQualifies substrs line n := by
  unfold fmmRowId RowQualifies
  rcases hsp : splitOnChar '\t' line with _ | ⟨p1, _ | ⟨p2, _ | ⟨p3, rest⟩⟩⟩
  · simp [hsp]
  · simp [hsp]
  · simp [hsp]
  · simp only [hsp]
    constructor
    · intro h
      split at h
      next hall =>
        exact ⟨p1, p2, p3, rest, rfl, by simpa [List.all_eq_true] using hall, h⟩
      next => exact absurd h (by simp)
    · rintro ⟨a, b, cc, d, heq, hall, hatoi⟩
      obtain ⟨rfl, rfl, rfl, rfl⟩ : p1 = a ∧ p2 = b ∧ p3 = cc ∧ rest = d := by
        injection heq with e1 e2
        injection e2 with e2 e3
        injection e3 with e3 e4
        exact ⟨e1, e2, e3, e4⟩
      have hb : (substrs.all fun s => containsSub p3 s) = true := List.all_eq_true.mpr hall
      simp [hb, hatoi]

theorem fmRowId_eq_fmm (sub line : Str) : fmRowId sub line = fmmRowId [sub] line := by
  unfold fmRowId fmmRowId
  rcases splitOnChar '\t' line with _ | ⟨p1, _ | ⟨p2, _ | ⟨p3, rest⟩⟩⟩ <;> simp

theorem fmRowId_eq_some_iff {sub line : Str} {n : Int} :
    fmRowId sub line = some n ↔ RowQualifies [sub] line n := by
  rw [fmRowId_eq_fmm]; exact fmmRowId_eq_some_iff

theorem RowQualifies_mono {sub sub' line : Str} {n : Int}
    (hss : containsSub sub' sub = true) (h : RowQualifies [sub'] line n) :
    RowQualifies [sub] line n := by
  obtain ⟨p1, p2, p3, rest, hsp, hall, hatoi⟩ := h
  refine ⟨p1, p2, p3, rest, hsp, ?_, hatoi⟩
  intro s hs
  rw [List.mem_singleton] at hs
  subst hs
  exact containsSub_trans hss (hall sub' (List.mem_singleton.mpr rfl))

/-- Core monotonicity of `FindModules`: a coarser pattern (a substring of
the finer one) matches at least the same rows, and in particular cannot
report NotFound when the finer one succeeded. -/
theorem FindModules_mono {c : Client} {sub sub' : Str} {ids' : List Int}
    (hss : containsSub sub' sub = true) (h : FindModules c sub' = .ok ids') :
    ∃ ids, FindModules c sub = .ok ids ∧ ∀ n ∈ ids', n ∈ ids := by
  unfold FindModules at h ⊢
  cases hp : Pactl c [str "list", str "short", str "modules"] with
  | error e => rw [hp] at h; simp at h
  | ok out =>
    rw [hp] at h
    dsimp only at h ⊢
    split at h
    next => exact absurd h (by simp)
    next hne =>
      have hids : ids' = (scanLines out).filterMap (fmRowId sub') := by
        injection h with h; exact h.symm
      have hsub : ∀ n ∈ ids', n ∈ (scanLines out).filterMap (fmRowId sub) := by
        intro n hn
        rw [hids] at hn
        obtain ⟨line, hline, hrow⟩ := List.mem_filterMap.mp hn
        exact List.mem_filterMap.mpr
          ⟨line, hline, fmRowId_eq_some_iff.mpr
            (RowQualifies_mono hss (fmRowId_eq_some_iff.mp hrow))⟩
      have hne2 : ((scanLines out).filterMap (fmRowId sub)).isEmpty = false := by
        have hnil : ids' ≠ [] := by
          intro hnil
          rw [hids] at hnil
          exact hne (by simp [hnil])
        obtain ⟨n, hn⟩ := List.exists_mem_of_ne_nil ids' hnil
        rcases hmem : ((scanLines out).filterMap (fmRowId sub)) with _ | ⟨x, xs⟩
        · exact absurd (hmem ▸ hsub n hn) (by simp)
        · simp
      simp only [hne2, Bool.false_eq_true, if_false]
      exact ⟨_, rfl, hsub⟩

/-- **C9** (implicit, algebraic): pattern-match monotonicity of
`FindModules` — if `sub` occurs inside `sub'`, every module id returned for
`sub'` on the same listing is also returned for `sub`; in particular
Reset's base-sink pattern `sink_name=X` also matches every module created
with `sink_name=X-mic`, so the step-3 query result is a superset of the
step-2 query result. -/
theorem c9_findModules_monotone :
    (∀ (c : Client) (sub sub' : Str) (ids' : List Int),
       containsSub sub' sub = true → FindModules c sub' = .ok ids' →
       ∃ ids, FindModules c sub = .ok ids ∧ ∀ n ∈ ids', n ∈ ids) ∧
    (∀ (c : Client) (x : Str) (ids2 : List Int),
       FindModules c (str "sink_name=" ++ x ++ str "-mic") = .ok ids2 →
       ∃ ids3, FindModules c (str "sink_name=" ++ x) = .ok ids3 ∧ ∀ n ∈ ids2, n ∈ ids3) := by
  constructor
  · intro c sub sub' ids' hss h
    exact FindModules_mono hss h
  · intro c x ids2 h
    have hss : containsSub (str "sink_name=" ++ x ++ str "-mic") (str "sink_name=" ++ x) = true := by
      have := containsSub_append_right (str "sink_name=" ++ x) (str "-mic")
      simpa using this
    exact FindModules_mono hss h

/-- Witness for C9 at the concrete Reset fixture: the step-2 ids `[2]` of
pattern `sink_name=v-mic` are contained in the step-3 ids `[1, 2]` of
pattern `sink_name=v`. -/
theorem c9_findModules_monotone_witness :
    FindModules rstClient (str "sink_name=" ++ str "v" ++ str "-mic") = .ok [2] ∧
    ∃ ids3, FindModules rstClient (str "sink_name=" ++ str "v") = .ok ids3 ∧
      ∀ n ∈ [(2 : Int)], n ∈ ids3 := by
  have h2 : FindModules rstClient (str "sink_name=" ++ str "v" ++ str "-mic") = .ok [2] := by
    decide
  exact ⟨h2, c9_findModules_monotone.2 rstClient (str "v") [2] h2⟩

/-- **C6**: on any successful module listing, `FindModulesMatching`
returns exactly the ids of well-formed rows whose argument column contains
every given substring (so a module containing only one of two substrings
is excluded), and reports NotFound — instead of an empty list — exactly
when no row qualifies. -/
theorem c6_findModulesMatching_and :
    ∀ (c : Client) (substrs : List Str) (out : Str),
      Pactl c [str "list", str "short", str "modules"] = .ok out →
      (∀ ids n, FindModulesMatching c substrs = .ok ids →
         (n ∈ ids ↔ ∃ line ∈ scanLines out, RowQualifies substrs line n)) ∧
      (FindModulesMatching c substrs =
          .error (str "no modules matching substrings [" ++ joinSpace substrs ++ str "] found") ↔
        ¬ ∃ line ∈ scanLines out, ∃ n, RowQualifies substrs line n) := by
  intro c substrs out hp
  unfold FindModulesMatching
  rw [hp]
  dsimp only
  constructor
  · intro ids n h
    split at h
    next => exact absurd h (by simp)
    next =>
      have hids : ids = (scanLines out).filterMap (fmmRowId substrs) := by
        injection h with h; exact h.symm
      subst hids
      rw [List.mem_filterMap]
      constructor
      · rintro ⟨line, hl, hr⟩; exact ⟨line, hl, fmmRowId_eq_some_iff.mp hr⟩
      · rintro ⟨line, hl, hq⟩; exact ⟨line, hl, fmmRowId_eq_some_iff.mpr hq⟩
  · constructor
    · intro h hex
      obtain ⟨line, hl, n, hq⟩ := hex
      split at h
      next hemp =>
        have hmem : n ∈ (scanLines out).filterMap (fmmRowId substrs) :=
          List.mem_filterMap.mpr ⟨line, hl, fmmRowId_eq_some_iff.mpr hq⟩
        rw [List.isEmpty_iff] at hemp
        rw [hemp] at hmem
        simp at hmem
      next => simp at h
    · intro hno
      have hemp : ((scanLines out).filterMap (fmmRowId substrs)).isEmpty = true := by
        rw [List.isEmpty_iff, List.filterMap_eq_nil_iff]
        intro line hl
        cases hfm : fmmRowId substrs line with
        | none => rfl
        | some n => exact absurd ⟨line, hl, n, fmmRowId_eq_some_iff.mp hfm⟩ hno
      simp [hemp]

/-- Witness for C6 at a concrete client whose module listing is empty: the
query reports NotFound. -/
theorem c6_findModulesMatching_and_witness :
    FindModulesMatching devClient [str "x"] =
      .error (str "no modules matching substrings [" ++ joinSpace [str "x"] ++ str "] found") := by
  refine (c6_findModulesMatching_and devClient [str "x"] (str "") (by decide)).2.mpr ?_
  have hsc : scanLines (str "") = [] := by decide
  simp [hsc]

/-- **C7**: `SinkExists` returns `Except.ok true` exactly when some
tab-delimited row of the short sink listing has second column exactly
equal to the queried name; any clean listing without such a row — the
empty listing included — yields `Except.ok false`, and an error is
returned only when the listing query itself fails. -/
theorem c7_sinkExists_exact :
    ∀ (c : Client) (sinkName : Str),
      (∀ out, Pactl c [str "list", str "short", str "sinks"] = .ok out →
         ∃ b, SinkExists c sinkName = .ok b ∧
           (b = true ↔ ∃ line ∈ scanLines out, ∃ c1 rest,
               splitOnChar '\t' line = c1 :: sinkName :: rest)) ∧
      (∀ e, Pactl c [str "list", str "short", str "sinks"] = .error e →
         SinkExists c sinkName = .error (str "failed to list sinks: " ++ e)) := by
  intro c sinkName
  constructor
  · intro out hp
    unfold SinkExists
    rw [hp]
    refine ⟨_, rfl, ?_⟩
    rw [List.any_eq_true]
    constructor
    · rintro ⟨line, hl, hm⟩
      refine ⟨line, hl, ?_⟩
      unfold sinkRowMatches at hm
      rcases hsp : splitOnChar '\t' line with _ | ⟨c1, _ | ⟨nm, rest⟩⟩ <;> rw [hsp] at hm
      · simp at hm
      · simp at hm
      · simp only [beq_iff_eq] at hm
        obtain rfl : nm = sinkName := hm
        exact ⟨c1, rest, rfl⟩
    · rintro ⟨line, hl, c1, rest, hsp⟩
      refine ⟨line, hl, ?_⟩
      unfold sinkRowMatches
      rw [hsp]
      simp
  · intro e hp
    unfold SinkExists
    rw [hp]

/-- Witness for C7: the clean empty listing of the Deploy fixture yields
`Except.ok false` with an unsatisfiable row condition. -/
theorem c7_sinkExists_exact_witness :
    ∃ b, SinkExists devClient (str "w") = .ok b ∧
      (b = true ↔ ∃ line ∈ scanLines (str ""), ∃ c1 rest,
          splitOnChar '\t' line = c1 :: str "w" :: rest) :=
  (c7_sinkExists_exact devClient (str "w")).1 (str "") (by decide)

/-! ## Dry-run behaviour of the mediator -/

theorem Pactl_dry {c : Client} (h : c.dryRun = true) (args : List Str) :
    Pactl c args = .ok (dryEcho args) := by
  simp [Pactl, h]

theorem SinkExists_dry {c : Client} (h : c.dryRun = true) (name : Str) :
    SinkExists c name = .ok false := by
  unfold SinkExists
  rw [Pactl_dry h]
  rfl

theorem GetSinkMonitor_dry {c : Client} (h : c.dryRun = true) (name : Str) :
    GetSinkMonitor c name =
      .error (str "monitor source for sink " ++ quo name ++ str " not found") := by
  unfold GetSinkMonitor
  rw [Pactl_dry h]
  rfl

/-- **C10**: with dry-run enabled, `SinkExists` answers `(false, nil)` for
every sink name and every server state (the echo line has no tab-delimited
name column), so a dry-run `Deploy` always takes both create branches: its
issued commands are exactly the two `load-module module-null-sink`
commands, for the base sink and for the mic sink, regardless of what
exists on the real server. -/
theorem c10_dry_sinkExists_false_and_deploy_creates :
    (∀ (c : Client) (name : Str), c.dryRun = true → SinkExists c name = .ok false) ∧
    (∀ (c : Client) (p : Profile), c.dryRun = true →
       (Deploy c p).1 = [nullSinkCmd p.virtualSink,
          micSinkCmd (p.virtualSink ++ str "-mic") (str "Virtual Mic (" ++ p.name ++ str ")")]) := by
  constructor
  · intro c name h
    exact SinkExists_dry h name
  · intro c p h
    unfold Deploy
    simp only [SinkExists_dry h, GetSinkMonitor_dry h, Pactl_dry h]
    simp

/-- Witness for C10 at the concrete dry-run client and fixture profile. -/
theorem c10_dry_sinkExists_false_and_deploy_creates_witness :
    SinkExists dryClient (str "v") = .ok false ∧
    (Deploy dryClient devProfile).1 =
      [nullSinkCmd (str "v"),
       micSinkCmd (str "v" ++ str "-mic") (str "Virtual Mic (" ++ str "fp" ++ str ")")] :=
  ⟨c10_dry_sinkExists_false_and_deploy_creates.1 dryClient (str "v") rfl,
   c10_dry_sinkExists_false_and_deploy_creates.2 dryClient devProfile rfl⟩

/-- **C1** (refuted by the code): in dry-run mode the `Pactl` gate does
substitute the echo for its own calls, but `ListSinkInputs` bypasses the
gate and runs the real `pactl list sink-inputs` directly: two dry-run
clients over different real servers return different parsed listings —
never the echo — so the dry-run outcome of this read-only query does
depend on the server's responses.  (The package's own test injects a fake
executor into `ListSinkInputs` and `pactl.New`'s contract says dry-run
executes no commands, so the bypass contradicts the code's own test and
documentation.) -/
theorem c1_dryRun_listSinkInputs_contacts_server :
    c1ClientA.dryRun = true ∧ c1ClientB.dryRun = true ∧
    Pactl c1ClientA [str "list", str "sink-inputs"] =
      .ok (dryEcho [str "list", str "sink-inputs"]) ∧
    ListSinkInputs c1ClientA = .ok [{ id := 3, applicationName := [] }] ∧
    ListSinkInputs c1ClientB = .ok [] ∧
    ListSinkInputs c1ClientA ≠ ListSinkInputs c1ClientB :=
  ⟨rfl, rfl, by decide, by decide, by decide, by decide⟩

/-! ## Deploy's failure propagation -/

theorem nullSinkCmd_head (n : Str) : (nullSinkCmd n).head? = some (str "load-module") := rfl

theorem micSinkCmd_head (m d : Str) : (micSinkCmd m d).head? = some (str "load-module") := rfl

theorem loopbackCmd_head (s k : Str) : (loopbackCmd s k).head? = some (str "load-module") := rfl

/-- **C2 (amended)**: `Manager.Deploy` is fail-fast, not best-effort — an
error in any of the existence checks, sink creations, monitor resolution
or loopback creation is returned immediately and the remaining steps are
not attempted; in particular, whenever Deploy returns an error, every
command it issued is a `load-module` command: the application-routing step
(`move-sink-input`) never ran. -/
theorem mem_if_singleton {P : Prop} [Decidable P] {q x : Cmd}
    (h : q ∈ (if P then ([] : List Cmd) else [x])) : q = x := by
  split at h <;> simp_all

theorem c2_deploy_fail_fast :
    ∀ (c : Client) (p : Profile) (tr : List Cmd) (e : GoError),
      Deploy c p = (tr, .error e) → ∀ q ∈ tr, q.head? = some (str "load-module") := by
  intro c p tr e hD q hq
  unfold Deploy at hD
  split at hD
  next =>
    injection hD with hTr hE
    subst hTr
    simp at hq
  next =>
    dsimp only at hD
    split at hD
    next =>
      injection hD with hTr hE
      subst hTr
      obtain rfl := mem_if_singleton hq
      exact nullSinkCmd_head _
    next =>
      split at hD
      next =>
        injection hD with hTr hE
        subst hTr
        obtain rfl := mem_if_singleton hq
        exact nullSinkCmd_head _
      next =>
        split at hD
        next =>
          injection hD with hTr hE
          subst hTr
          rw [List.mem_append] at hq
          rcases hq with hq | hq
          · obtain rfl := mem_if_singleton hq
            exact nullSinkCmd_head _
          · obtain rfl := mem_if_singleton hq
            exact micSinkCmd_head _ _
        next =>
          split at hD
          next =>
            injection hD with hTr hE
            subst hTr
            rw [List.mem_append] at hq
            rcases hq with hq | hq
            · obtain rfl := mem_if_singleton hq
              exact nullSinkCmd_head _
            · obtain rfl := mem_if_singleton hq
              exact micSinkCmd_head _ _
          next =>
            split at hD
            next =>
              split at hD
              next =>
                injection hD with hTr hE
                subst hTr
                rw [List.mem_append] at hq
                rcases hq with hq | hq
                · rw [List.mem_append] at hq
                  rcases hq with hq | hq
                  · obtain rfl := mem_if_singleton hq
                    exact nullSinkCmd_head _
                  · obtain rfl := mem_if_singleton hq
                    exact micSinkCmd_head _ _
                · rw [List.mem_singleton] at hq
                  subst hq
                  exact loopbackCmd_head _ _
              next =>
                injection hD with hTr hE
                exact absurd hE (by simp)
            next =>
              injection hD with hTr hE
              exact absurd hE (by simp)

/-- Counterexample to **C2** as stated: on `c2Client` the very first
existence check fails, and `Deploy` aborts with an error having issued no
command at all — even though the later loopback step, taken on the same
server state, would have applied (its AND-query reports NotFound) and its
creation command would have succeeded.  Under the claim, the loopback
creation would still have been attempted. -/
theorem c2_deploy_not_best_effort_cex :
    (Deploy c2Client devProfile).1 = [] ∧
    (Deploy c2Client devProfile).2.isOk = false ∧
    GetSinkMonitor c2Client (str "v") = .ok (str "vmon") ∧
    (FindModulesMatching c2Client
        [str "source=" ++ str "vmon", str "sink=" ++ (str "v" ++ str "-mic")]).isOk = false ∧
    Pactl c2Client (loopbackCmd (str "vmon") (str "v" ++ str "-mic")) = .ok (str "") :=
  ⟨by decide, by decide, by decide, by decide, by decide⟩

/-- Witness for the amended C2 at `c2bClient`: Deploy aborts after its
first (failing) creation, whose lone issued command is a `load-module`. -/
theorem c2_deploy_fail_fast_witness :
    (nullSinkCmd (str "v")).head? = some (str "load-module") :=
  c2_deploy_fail_fast c2bClient devProfile [nullSinkCmd (str "v")] eC2b (by decide)
    (nullSinkCmd (str "v")) (by decide)

/-! ## Deploy's loopback gate -/

theorem loopbackCmd_not_mem_routeApps (c : Client) (p : Profile) (s k : Str) :
    loopbackCmd s k ∉ routeApps c p := by
  intro hmem
  unfold routeApps at hmem
  rw [List.mem_flatten] at hmem
  obtain ⟨l, hl, hql⟩ := hmem
  rw [List.mem_map] at hl
  obtain ⟨app, happ, rfl⟩ := hl
  unfold routeOne at hql
  split at hql
  · split at hql
    · simp at hql
    · rw [List.mem_filterMap] at hql
      obtain ⟨inp, hinp, hsome⟩ := hql
      split at hsome
      · injection hsome with hcmd
        have hlen := congrArg List.length hcmd
        simp [moveCmd, loopbackCmd] at hlen
      · simp at hsome
  · simp at hql

/-- **C4 (amended)**: when both sinks already exist and the monitor
resolves to `mon`, Deploy's step 3 issues the loopback-creation command if
and only if the AND-match query over the *prefixed* patterns
`["source=" ++ mon, "sink=" ++ MicSinkName]` fails (NotFound); whenever
that query returns at least one module, no loopback-creation command is
issued. -/
theorem c4_loopback_iff_notfound :
    ∀ (c : Client) (p : Profile) (mon : Str),
      SinkExists c p.virtualSink = .ok true →
      SinkExists c (p.virtualSink ++ str "-mic") = .ok true →
      GetSinkMonitor c p.virtualSink = .ok mon →
      (loopbackCmd mon (p.virtualSink ++ str "-mic") ∈ (Deploy c p).1 ↔
        ∃ e, FindModulesMatching c
          [str "source=" ++ mon, str "sink=" ++ (p.virtualSink ++ str "-mic")] = .error e) := by
  intro c p mon h1 h2 hg
  unfold Deploy
  simp only [h1, h2, hg, if_true]
  cases hf : FindModulesMatching c
      [str "source=" ++ mon, str "sink=" ++ (p.virtualSink ++ str "-mic")] with
  | error e =>
    dsimp only
    cases hP : Pactl c (loopbackCmd mon (p.virtualSink ++ str "-mic")) <;> simp
  | ok ids =>
    dsimp only
    rw [List.nil_append, List.nil_append]
    exact iff_of_false (loopbackCmd_not_mem_routeApps c p _ _)
      (by rintro ⟨e', he⟩; simp at he)

/-- Counterexample to **C4** as stated: on `c4Client`, the claim's query
`findModulesMatching([monitorSource, MicSinkName])` — over the bare names
`vmon` and `v-mic` — returns module 9, yet Deploy still issues the
loopback-creation command, because the code queries the prefixed patterns
`source=vmon` / `sink=v-mic`, which module 9's arguments do not contain. -/
theorem c4_loopback_despite_bare_match_cex :
    loopbackCmd (str "vmon") (str "v-mic") ∈ (Deploy c4Client devProfile).1 ∧
    FindModulesMatching c4Client [str "vmon", str "v-mic"] = .ok [9] :=
  ⟨by decide, by decide⟩

/-- Witness for the amended C4 at `c4Client`. -/
theorem c4_loopback_iff_notfound_witness :
    loopbackCmd (str "vmon") (str "v" ++ str "-mic") ∈ (Deploy c4Client devProfile).1 ↔
      ∃ e, FindModulesMatching c4Client
        [str "source=" ++ str "vmon", str "sink=" ++ (str "v" ++ str "-mic")] = .error e :=
  c4_loopback_iff_notfound c4Client devProfile (str "vmon") (by decide) (by decide) (by decide)

/-! ## Reset's shape -/

theorem fmm_unloads {c : Client} {ss : List Str} {out : Str}
    (hp : Pactl c [str "list", str "short", str "modules"] = .ok out) :
    unloadsOf (FindModulesMatching c ss) =
      ((scanLines out).filterMap (fmmRowId ss)).map unloadCmd := by
  unfold FindModulesMatching
  rw [hp]
  dsimp only
  cases hemp : ((scanLines out).filterMap (fmmRowId ss)).isEmpty with
  | true =>
    have hnil : (scanLines out).filterMap (fmmRowId ss) = [] := List.isEmpty_iff.mp hemp
    simp [hemp, hnil, unloadsOf]
  | false => simp [hemp, unloadsOf]

theorem fm_unloads {c : Client} {sub : Str} {out : Str}
    (hp : Pactl c [str "list", str "short", str "modules"] = .ok out) :
    unloadsOf (FindModules c sub) =
      ((scanLines out).filterMap (fmRowId sub)).map unloadCmd := by
  unfold FindModules
  rw [hp]
  dsimp only
  cases hemp : ((scanLines out).filterMap (fmRowId sub)).isEmpty with
  | true =>
    have hnil : (scanLines out).filterMap (fmRowId sub) = [] := List.isEmpty_iff.mp hemp
    simp [hemp, hnil, unloadsOf]
  | false => simp [hemp, unloadsOf]

/-- **C5 (amended)**: on any successful module listing, `Reset` proceeds
in strict reverse creation order and always returns nil: first it unloads
every module matching the AND-pattern
`["source=" ++ monitorSource, "sink=" ++ MicSinkName]` — where
`monitorSource` is the resolved monitor, or the *empty string* when
resolution failed (the step is *not* skipped; its first pattern then
degenerates to `source=`) — then every module matching
`sink_name= ++ MicSinkName`, then every module matching
`sink_name= ++ VirtualSinkName`; a step with no matches contributes no
commands and later steps still run. -/
theorem c5_reset_reverse_order_shape :
    ∀ (c : Client) (p : Profile) (out : Str),
      Pactl c [str "list", str "short", str "modules"] = .ok out →
      Reset c p =
        (((scanLines out).filterMap (fmmRowId
             [str "source=" ++ resolvedMonitor c p.virtualSink,
              str "sink=" ++ (p.virtualSink ++ str "-mic")])).map unloadCmd ++
         ((scanLines out).filterMap
             (fmRowId (str "sink_name=" ++ (p.virtualSink ++ str "-mic")))).map unloadCmd ++
         ((scanLines out).filterMap
             (fmRowId (str "sink_name=" ++ p.virtualSink))).map unloadCmd,
         .ok ()) := by
  intro c p out hp
  unfold Reset
  dsimp only
  rw [fmm_unloads hp, fm_unloads hp, fm_unloads hp]

/-- Counterexample to **C5** as stated: on `c5Client` monitor resolution
fails, yet the loopback step is not skipped — with the empty monitor name
the AND-pattern `["source=", "sink=v-mic"]` matches module 7 and Reset
unloads it. -/
theorem c5_loopback_step_not_skipped_cex :
    (GetSinkMonitor c5Client (str "v")).isOk = false ∧
    Reset c5Client devProfile = ([unloadCmd 7], .ok ()) :=
  ⟨by decide, by decide⟩

/-! ## GetSinkMonitor's scan -/

theorem bool_eq_false_of_ne_true {b : Bool} (h : ¬ b = true) : b = false := by
  cases b
  · rfl
  · exact absurd rfl h

theorem startsWith_head_ne {l p q : Str} {a b : Char} (hab : (a == b) = false)
    (h : startsWith l (a :: p) = true) : startsWith l (b :: q) = false := by
  cases l with
  | nil => simp [startsWith] at h
  | cons x xs =>
    simp only [startsWith, Bool.and_eq_true, beq_iff_eq] at h
    obtain ⟨rfl, -⟩ := h
    simp [startsWith, hab]

theorem nameMatchLine_not_header {name l : Str} (h : nameMatchLine name l = true) :
    sinkHeaderLine l = false := by
  unfold nameMatchLine at h
  unfold sinkHeaderLine
  have e1 : str "Name: " ++ name = 'N' :: (str "ame: " ++ name) := rfl
  have e2 : str "Sink #" = 'S' :: str "ink #" := rfl
  rw [e1] at h
  rw [e2]
  exact startsWith_head_ne (by decide) h

theorem monitorLine_not_header {l : Str} (h : monitorLine l = true) :
    sinkHeaderLine l = false := by
  unfold monitorLine at h
  unfold sinkHeaderLine
  have e1 : str "Monitor Source: " = 'M' :: str "onitor Source: " := rfl
  have e2 : str "Sink #" = 'S' :: str "ink #" := rfl
  rw [e1] at h
  rw [e2]
  exact startsWith_head_ne (by decide) h

theorem monitorLine_not_name {name l : Str} (h : monitorLine l = true) :
    nameMatchLine name l = false := by
  unfold monitorLine at h
  unfold nameMatchLine
  have e1 : str "Monitor Source: " = 'M' :: str "onitor Source: " := rfl
  have e2 : str "Name: " ++ name = 'N' :: (str "ame: " ++ name) := rfl
  rw [e1] at h
  rw [e2]
  exact startsWith_head_ne (by decide) h

theorem MonWitness_cons {name m l : Str} {rest : List Str}
    (h : MonWitness name m rest) : MonWitness name m (l :: rest) := by
  obtain ⟨pre, nl, mid, ml, post, heq, h1, h2, h3, h4⟩ := h
  exact ⟨l :: pre, nl, mid, ml, post, by rw [heq]; rfl, h1, h2, h3, h4⟩

theorem MonReachVal_cons {m l : Str} {rest : List Str}
    (hH : sinkHeaderLine l = false) (h : MonReachVal m rest) :
    MonReachVal m (l :: rest) := by
  obtain ⟨mid, ml, post, heq, h2, h3, h4⟩ := h
  refine ⟨l :: mid, ml, post, by rw [heq]; rfl, ?_, h3, h4⟩
  intro x hx
  rcases List.mem_cons.mp hx with rfl | hx
  · exact hH
  · exact h2 x hx

theorem gsm_sound (name : Str) :
    ∀ (lines : List Str) (flag : Bool) (m : Str),
      gsmLoop name lines flag = some m →
      (flag = true ∧ MonReachVal m lines) ∨ MonWitness name m lines := by
  intro lines
  induction lines with
  | nil => intro flag m h; simp [gsmLoop] at h
  | cons l rest ih =>
    intro flag m h
    unfold gsmLoop at h
    dsimp only at h
    by_cases h1 : startsWith (trimSpace l) (str "Sink #") = true
    · rw [if_pos h1] at h
      rcases ih false m h with ⟨hfl, -⟩ | hw
      · exact absurd hfl (by simp)
      · exact Or.inr (MonWitness_cons hw)
    · rw [if_neg h1] at h
      by_cases h2 : startsWith (trimSpace l) (str "Name: " ++ name) = true
      · rw [if_pos h2] at h
        rcases ih true m h with ⟨-, mid, ml, post, heq, hmid, hml, hv⟩ | hw
        · exact Or.inr ⟨[], l, mid, ml, post, by rw [heq]; rfl, h2, hmid, hml, hv⟩
        · exact Or.inr (MonWitness_cons hw)
      · rw [if_neg h2] at h
        by_cases h3 : (flag && startsWith (trimSpace l) (str "Monitor Source: ")) = true
        · rw [if_pos h3] at h
          injection h with hm
          rw [Bool.and_eq_true] at h3
          exact Or.inl ⟨h3.1, [], l, rest, rfl, by simp, h3.2, hm.symm⟩
        · rw [if_neg h3] at h
          rcases ih flag m h with ⟨hfl, hr⟩ | hw
          · exact Or.inl ⟨hfl, MonReachVal_cons (bool_eq_false_of_ne_true h1) hr⟩
          · exact Or.inr (MonWitness_cons hw)

theorem gsm_complete (name : Str) :
    ∀ (lines : List Str) (flag : Bool),
      ((flag = true ∧ ∃ m, MonReachVal m lines) ∨ (∃ m, MonWitness name m lines)) →
      ∃ m', gsmLoop name lines flag = some m' := by
  intro lines
  induction lines with
  | nil =>
    rintro flag (⟨-, m, mid, ml, post, heq, -⟩ | ⟨m, pre, nl, mid, ml, post, heq, -⟩) <;>
      exact absurd heq (by simp)
  | cons l rest ih =>
    intro flag hw
    unfold gsmLoop
    dsimp only
    by_cases h1 : startsWith (trimSpace l) (str "Sink #") = true
    · rw [if_pos h1]
      apply ih false
      right
      rcases hw with ⟨hfl, m, mid, ml, post, heq, hmid, hml, hv⟩ |
        ⟨m, pre, nl, mid, ml, post, heq, hnl, hmid, hml, hv⟩
      · cases mid with
        | nil =>
          rw [List.nil_append] at heq
          injection heq with e1 e2
          subst e1
          have h1b : sinkHeaderLine l = true := h1
          rw [monitorLine_not_header hml] at h1b
          exact absurd h1b (by simp)
        | cons x mid2 =>
          injection heq with e1 e2
          subst e1
          have h1b : sinkHeaderLine l = true := h1
          rw [hmid l (List.mem_cons_self _ _)] at h1b
          exact absurd h1b (by simp)
      · cases pre with
        | nil =>
          rw [List.nil_append] at heq
          injection heq with e1 e2
          subst e1
          have h1b : sinkHeaderLine l = true := h1
          rw [nameMatchLine_not_header hnl] at h1b
          exact absurd h1b (by simp)
        | cons x pre2 =>
          injection heq with e1 e2
          subst e1
          exact ⟨m, pre2, nl, mid, ml, post, e2, hnl, hmid, hml, hv⟩
    · rw [if_neg h1]
      by_cases h2 : startsWith (trimSpace l) (str "Name: " ++ name) = true
      · rw [if_pos h2]
        apply ih true
        rcases hw with ⟨hfl, m, mid, ml, post, heq, hmid, hml, hv⟩ |
          ⟨m, pre, nl, mid, ml, post, heq, hnl, hmid, hml, hv⟩
        · cases mid with
          | nil =>
            rw [List.nil_append] at heq
            injection heq with e1 e2
            subst e1
            have h2b : nameMatchLine name l = true := h2
            rw [monitorLine_not_name hml] at h2b
            exact absurd h2b (by simp)
          | cons x mid2 =>
            injection heq with e1 e2
            subst e1
            exact Or.inl ⟨rfl, m, mid2, ml, post, e2, fun y hy => hmid y (List.mem_cons_of_mem _ hy), hml, hv⟩
        · cases pre with
          | nil =>
            rw [List.nil_append] at heq
            injection heq with e1 e2
            subst e1
            exact Or.inl ⟨rfl, m, mid, ml, post, e2, hmid, hml, hv⟩
          | cons x pre2 =>
            injection heq with e1 e2
            subst e1
            exact Or.inr ⟨m, pre2, nl, mid, ml, post, e2, hnl, hmid, hml, hv⟩
      · rw [if_neg h2]
        by_cases h3 : (flag && startsWith (trimSpace l) (str "Monitor Source: ")) = true
        · rw [if_pos h3]
          exact ⟨_, rfl⟩
        · rw [if_neg h3]
          apply ih flag
          rcases hw with ⟨hfl, m, mid, ml, post, heq, hmid, hml, hv⟩ |
            ⟨m, pre, nl, mid, ml, post, heq, hnl, hmid, hml, hv⟩
          · cases mid with
            | nil =>
              rw [List.nil_append] at heq
              injection heq with e1 e2
              subst e1
              have h3b : (flag && startsWith (trimSpace l) (str "Monitor Source: ")) = true := by
                rw [hfl, Bool.true_and]
                exact hml
              exact absurd h3b h3
            | cons x mid2 =>
              injection heq with e1 e2
              subst e1
              exact Or.inl ⟨hfl, m, mid2, ml, post, e2, fun y hy => hmid y (List.mem_cons_of_mem _ hy), hml, hv⟩
          · cases pre with
            | nil =>
              rw [List.nil_append] at heq
              injection heq with e1 e2
              subst e1
              exact absurd hnl h2
            | cons x pre2 =>
              injection heq with e1 e2
              subst e1
              exact Or.inr ⟨m, pre2, nl, mid, ml, post, e2, hnl, hmid, hml, hv⟩

/-- **C3 (amended)**: `GetSinkMonitor(name)` matches the `Name:` field by
*prefix*, not exact equality: on a successful verbose listing, a returned
value is always the `Monitor Source:` field following — with no
intervening `Sink #` header — some line whose trimmed form begins with
`Name: <name>` (possibly a longer sink name); a witness of that shape
guarantees success; and NotFound is reported when no such configuration
exists. -/
theorem c3_getSinkMonitor_head_match :
    ∀ (c : Client) (name out : Str),
      Pactl c [str "list", str "sinks"] = .ok out →
      (∀ m, GetSinkMonitor c name = .ok m → MonWitness name m (scanLines out)) ∧
      ((∃ m, MonWitness name m (scanLines out)) →
        ∃ m', GetSinkMonitor c name = .ok m') ∧
      ((¬ ∃ m, MonWitness name m (scanLines out)) →
        GetSinkMonitor c name =
          .error (str "monitor source for sink " ++ quo name ++ str " not found")) := by
  intro c name out hp
  unfold GetSinkMonitor
  rw [hp]
  dsimp only
  refine ⟨?_, ?_, ?_⟩
  · intro m hm
    cases hg : gsmLoop name (scanLines out) false with
    | none => rw [hg] at hm; simp at hm
    | some m2 =>
      rw [hg] at hm
      dsimp only at hm
      injection hm with hmm
      subst hmm
      rcases gsm_sound name (scanLines out) false m2 hg with ⟨hfl, -⟩ | hw
      · exact absurd hfl (by simp)
      · exact hw
  · rintro ⟨m, hw⟩
    obtain ⟨m', hg⟩ := gsm_complete name (scanLines out) false (Or.inr ⟨m, hw⟩)
    rw [hg]
    exact ⟨m', rfl⟩
  · intro hno
    cases hg : gsmLoop name (scanLines out) false with
    | none => rfl
    | some m2 =>
      exfalso
      apply hno
      rcases gsm_sound name (scanLines out) false m2 hg with ⟨hfl, -⟩ | hw
      · exact absurd hfl (by simp)
      · exact ⟨m2, hw⟩

/-- Counterexample to **C3** as stated: querying `foo` against a listing
whose only block is named `foobar` returns that block's monitor source,
although no line's `Name:` field equals `foo` exactly — the match is a
prefix match, not an exact one. -/
theorem c3_prefix_not_exact_cex :
    GetSinkMonitor c3Client (str "foo") = .ok (str "m1") ∧
    (∀ l ∈ scanLines (str "Sink #1\nName: foobar\nMonitor Source: m1"),
       trimSpace l ≠ str "Name: foo") :=
  ⟨by decide, by decide⟩

/-- Witness for the amended C3 at `c3Client`. -/
theorem c3_getSinkMonitor_head_match_witness :
    MonWitness (str "foo") (str "m1")
      (scanLines (str "Sink #1\nName: foobar\nMonitor Source: m1")) :=
  (c3_getSinkMonitor_head_match c3Client (str "foo")
      (str "Sink #1\nName: foobar\nMonitor Source: m1") (by decide)).1 (str "m1") (by decide)

/-! ## The sink-input parser -/

theorem psiLoop_length :
    ∀ (lines : List Str) (cur : Option SinkInput) (acc : List SinkInput),
      (psiLoop lines cur acc).length =
        acc.length + (match cur with | some _ => 1 | none => 0) + lines.countP siHeader := by
  intro lines
  induction lines with
  | nil =>
    intro cur acc
    cases cur with
    | none => simp [psiLoop]
    | some c0 => simp [psiLoop]
  | cons l rest ih =>
    intro cur acc
    cases cur with
    | none =>
      rw [psiLoop]
      by_cases hH : siHeader l = true
      · rw [if_pos hH, ih]
        simp [List.countP_cons_of_pos _ _ hH]
        omega
      · rw [if_neg hH, ih]
        simp [List.countP_cons_of_neg _ _ hH]
    | some c0 =>
      rw [psiLoop]
      by_cases hH : siHeader l = true
      · rw [if_pos hH, ih]
        simp [List.countP_cons_of_pos _ _ hH]
        omega
      · rw [if_neg hH, ih]
        simp [List.countP_cons_of_neg _ _ hH]

theorem breakAt_of_mem {c : Char} :
    ∀ {l : Str}, c ∈ l → ∃ ab, breakAt c l = some ab := by
  intro l
  induction l with
  | nil => intro h; simp at h
  | cons x xs ih =>
    intro h
    unfold breakAt
    by_cases hx : (x == c) = true
    · rw [if_pos hx]; exact ⟨_, rfl⟩
    · rw [if_neg hx]
      have hc : c ∈ xs := by
        rcases List.mem_cons.mp h with rfl | h2
        · exact absurd (by simp) hx
        · exact h2
      obtain ⟨ab, hab⟩ := ih hc
      rw [hab]
      exact ⟨_, rfl⟩

theorem splitN2Eq_pair_of_appName {l : Str} (h : appNameLine l = true) :
    ∃ a bb, splitN2Eq (trimSpace l) = [a, bb] := by
  have hsw : startsWith (trimSpace l) (str "application.name =") = true := h
  rw [startsWith_iff] at hsw
  obtain ⟨r, hr⟩ := hsw
  have hmem : '=' ∈ trimSpace l := by
    rw [hr]
    rw [List.mem_append]
    exact Or.inl (by decide)
  obtain ⟨⟨a, bb⟩, hab⟩ := breakAt_of_mem hmem
  exact ⟨a, bb, by unfold splitN2Eq; rw [hab]⟩

theorem applyLine_name_app {r : SinkInput} {l : Str} (h : appNameLine l = true) :
    applyLine r l = { r with applicationName := appVal l } := by
  unfold applyLine
  rw [if_pos h]
  obtain ⟨a, bb, hsp⟩ := splitN2Eq_pair_of_appName h
  unfold psiStep appVal
  rw [hsp]

theorem applyLine_noapp {r : SinkInput} {l : Str} (h : ¬ appNameLine l = true) :
    applyLine r l = r := by
  unfold applyLine
  rw [if_neg h]

theorem applyBody_id (b : List Str) : ∀ r : SinkInput, (applyBody r b).id = r.id := by
  induction b with
  | nil => intro r; rfl
  | cons l t ih =>
    intro r
    show (applyBody (applyLine r l) t).id = r.id
    rw [ih (applyLine r l)]
    by_cases h : appNameLine l = true
    · rw [applyLine_name_app h]
    · rw [applyLine_noapp h]

theorem applyBody_name (b : List Str) :
    ∀ r : SinkInput, (applyBody r b).applicationName =
      (match (b.filter appNameLine).getLast? with
       | some l => appVal l
       | none => r.applicationName) := by
  induction b with
  | nil => intro r; rfl
  | cons l t ih =>
    intro r
    show (applyBody (applyLine r l) t).applicationName = _
    rw [ih (applyLine r l)]
    by_cases h : appNameLine l = true
    · have hfc : (l :: t).filter appNameLine = l :: t.filter appNameLine :=
        List.filter_cons_of_pos h
      rw [hfc]
      cases hft : t.filter appNameLine with
      | nil =>
        show ((match ([] : List Str).getLast? with
          | some l => appVal l
          | none => (applyLine r l).applicationName) : Str) = _
        have ha : (applyLine r l).applicationName = appVal l := by
          rw [applyLine_name_app h]
        simpa [List.getLast?_singleton] using ha
      | cons f fs =>
        rw [List.getLast?_cons_cons]
        cases hg : (f :: fs).getLast? with
        | none => simp at hg
        | some g => rfl
    · have hfc : (l :: t).filter appNameLine = t.filter appNameLine :=
        List.filter_cons_of_neg (by simpa using h)
      rw [hfc, applyLine_noapp h]

theorem psiLoop_some_chunk :
    ∀ (lines : List Str) (cur : SinkInput) (acc : List SinkInput),
      psiLoop lines (some cur) acc =
        acc ++ (applyBody cur (lines.takeWhile (fun x => !siHeader x)) ::
          (siBlocks (lines.dropWhile (fun x => !siHeader x))).map blockRec) := by
  intro lines
  induction lines with
  | nil =>
    intro cur acc
    simp [psiLoop, applyBody, siBlocks]
  | cons l rest ih =>
    intro cur acc
    rw [psiLoop]
    by_cases hH : siHeader l = true
    · rw [if_pos hH]
      rw [ih]
      have htw : (l :: rest).takeWhile (fun x => !siHeader x) = [] := by
        rw [List.takeWhile_cons]; simp [hH]
      have hdw : (l :: rest).dropWhile (fun x => !siHeader x) = l :: rest := by
        rw [List.dropWhile_cons]; simp [hH]
      rw [htw, hdw, siBlocks, if_pos hH]
      simp [applyBody, blockRec]
    · rw [if_neg hH]
      rw [ih]
      have htw : (l :: rest).takeWhile (fun x => !siHeader x) =
          l :: rest.takeWhile (fun x => !siHeader x) := by
        rw [List.takeWhile_cons]; simp [hH]
      have hdw : (l :: rest).dropWhile (fun x => !siHeader x) =
          rest.dropWhile (fun x => !siHeader x) := by
        rw [List.dropWhile_cons]; simp [hH]
      rw [htw, hdw]
      rfl

theorem psiLoop_none_chunk :
    ∀ (lines : List Str) (acc : List SinkInput),
      psiLoop lines none acc = acc ++ (siBlocks lines).map blockRec := by
  intro lines
  induction lines with
  | nil => intro acc; simp [psiLoop, siBlocks]
  | cons l rest ih =>
    intro acc
    rw [psiLoop]
    by_cases hH : siHeader l = true
    · rw [if_pos hH]
      rw [psiLoop_some_chunk, siBlocks, if_pos hH]
      simp [blockRec]
    · rw [if_neg hH]
      rw [ih, siBlocks, if_neg hH]

theorem blockRec_eq (blk : Str × List Str) :
    blockRec blk =
      { id := (goAtoi (trimPre (trimSpace blk.1) (str "Sink Input #"))).getD 0
        applicationName := blockAppName blk.2 } := by
  have h1 : (blockRec blk).id =
      (goAtoi (trimPre (trimSpace blk.1) (str "Sink Input #"))).getD 0 := by
    unfold blockRec
    rw [applyBody_id]
    rfl
  have h2 : (blockRec blk).applicationName = blockAppName blk.2 := by
    unfold blockRec
    rw [applyBody_name]
    unfold blockAppName
    cases (blk.2.filter appNameLine).getLast? <;> rfl
  cases hb : blockRec blk
  rw [hb] at h1 h2
  simp only at h1 h2
  rw [h1, h2]

/-- **C8**: the sink-input parser yields exactly one record per
`Sink Input #` header (after trimming) — junk lines never abort the
listing — and each record carries the id parsed from its header (0 when
malformed) together with the unquoted value of the last
`application.name =` property line of its block, or the empty string when
that property is absent. -/
theorem c8_sink_input_parse :
    ∀ (c : Client) (out : Str),
      c.sys [str "list", str "sink-inputs"] = (out, none) →
      ListSinkInputs c = .ok (parseSinkInputs (scanLines out)) ∧
      (parseSinkInputs (scanLines out)).length = (scanLines out).countP siHeader ∧
      parseSinkInputs (scanLines out) =
        (siBlocks (scanLines out)).map (fun blk =>
          { id := (goAtoi (trimPre (trimSpace blk.1) (str "Sink Input #"))).getD 0
            applicationName := blockAppName blk.2 }) := by
  intro c out h
  refine ⟨?_, ?_, ?_⟩
  · unfold ListSinkInputs
    rw [h]
  · unfold parseSinkInputs
    rw [psiLoop_length]
    simp
  · unfold parseSinkInputs
    rw [psiLoop_none_chunk]
    rw [List.nil_append]
    exact List.map_congr_left fun blk _ => blockRec_eq blk

/-- Witness for C8 at a two-block listing with a junk line, a quoted
application name, and a block without one. -/
theorem c8_sink_input_parse_witness :
    ListSinkInputs c1ClientA = .ok (parseSinkInputs (scanLines (str "Sink Input #3"))) ∧
    (parseSinkInputs (scanLines (str "Sink Input #3"))).length =
      (scanLines (str "Sink Input #3")).countP siHeader ∧
    parseSinkInputs (scanLines (str "Sink Input #3")) =
      (siBlocks (scanLines (str "Sink Input #3"))).map (fun blk =>
        { id := (goAtoi (trimPre (trimSpace blk.1) (str "Sink Input #"))).getD 0
          applicationName := blockAppName blk.2 }) :=
  c8_sink_input_parse c1ClientA (str "Sink Input #3") (by decide)

/-- Witness for the amended C5 at the Reset fixture client. -/
theorem c5_reset_reverse_order_shape_witness :
    Reset rstClient devProfile =
      (((scanLines (str "1\tmodule-null-sink\tsink_name=v\n2\tmodule-null-sink\tsink_name=v-mic x\n3\tmodule-loopback\tsource=v.monitor sink=v-mic latency_msec=1")).filterMap
          (fmmRowId [str "source=" ++ resolvedMonitor rstClient (str "v"),
                     str "sink=" ++ (str "v" ++ str "-mic")])).map unloadCmd ++
       ((scanLines (str "1\tmodule-null-sink\tsink_name=v\n2\tmodule-null-sink\tsink_name=v-mic x\n3\tmodule-loopback\tsource=v.monitor sink=v-mic latency_msec=1")).filterMap
          (fmRowId (str "sink_name=" ++ (str "v" ++ str "-mic")))).map unloadCmd ++
       ((scanLines (str "1\tmodule-null-sink\tsink_name=v\n2\tmodule-null-sink\tsink_name=v-mic x\n3\tmodule-loopback\tsource=v.monitor sink=v-mic latency_msec=1")).filterMap
          (fmRowId (str "sink_name=" ++ str "v"))).map unloadCmd,
       .ok ()) :=
  c5_reset_reverse_order_shape rstClient devProfile
    (str "1\tmodule-null-sink\tsink_name=v\n2\tmodule-null-sink\tsink_name=v-mic x\n3\tmodule-loopback\tsource=v.monitor sink=v-mic latency_msec=1")
    (by decide)
example : scanLines (str "a\nb\n") = [str "a", str "b"] := by decide
example : scanLines (str "") = [] := by decide
example : containsSub (str "sink_name=v-mic") (str "sink_name=v") = true := by decide
example : goAtoi (str "42") = some 42 := by decide
example : goAtoi (str "x2") = none := by decide
example : trimSpace (str "  a b ") = str "a b" := by decide
example :
    parseSinkInputs (scanLines (str "Sink Input #0\n\tapplication.name = \"Firefox\"")) =
      [⟨0, str "Firefox"⟩] := by decide

example :
    parseSinkInputs (scanLines
        (str "junk\nSink Input #1\n\tapplication.name = \"A\"\n\tapplication.name = \"B\"\nSink Input #x\nnoise")) =
      [⟨1, str "B"⟩, ⟨0, []⟩] := by decide

end Pubtalk
